import Mathlib

/-!
Shallow embedding of the tox repository's packet codecs and DHT maintenance
routines, together with proofs about them.

Byte strings are modelled as `List Nat` (each entry a byte value below 256
where it matters).  Pure Rust functions become Lean functions; fallible
parsers return `Option`; parsers that can hit an out-of-bounds slice index
(a Rust panic) return `PResult`, whose `panicked` constructor marks the
panic.  Randomness (`random_u32`, `random_u64`) and the crypto sealing
primitive are passed in as explicit arguments.
-/

namespace Tox

/-- Result of running a Rust function that may panic: either a panic
(out-of-bounds slice index) or a normal `Option` result. -/
inductive PResult (α : Type) where
  | panicked : PResult α
  | ok : Option α → PResult α
deriving DecidableEq

/-- Modelled from the spec: integers are serialized big-endian
(`binary_io.rs` is not part of the sources).  `u16_to_array` turns a `u16`
into its two big-endian bytes. -/
def u16_to_array (n : Nat) : List Nat :=
  [n / 256 % 256, n % 256]

/-- Modelled from the spec: `array_to_u16` reads two big-endian bytes. -/
def array_to_u16 (a b : Nat) : Nat :=
  a * 256 + b

/-- Modelled from the spec: `u64_to_array` produces eight big-endian bytes. -/
def u64_to_array (n : Nat) : List Nat :=
  [n / 2 ^ 56 % 256, n / 2 ^ 48 % 256, n / 2 ^ 40 % 256, n / 2 ^ 32 % 256,
   n / 2 ^ 24 % 256, n / 2 ^ 16 % 256, n / 2 ^ 8 % 256, n % 256]

/-- Modelled from the spec: `array_to_u64` folds eight big-endian bytes into
a `u64`. -/
def array_to_u64 (l : List Nat) : Nat :=
  l.foldl (fun acc b => acc * 256 + b) 0

/-- `PUBLICKEYBYTES` of the crypto adapter: a public key is 32 bytes. -/
def PUBLICKEYBYTES : Nat := 32

/-- `NONCEBYTES` of the crypto adapter: a nonce is 24 bytes. -/
def NONCEBYTES : Nat := 24

/-- `MACBYTES` of the crypto adapter: the authentication tag is 16 bytes. -/
def MACBYTES : Nat := 16

/-- Modelled from the spec: `PublicKey::from_slice` of the crypto adapter
(`crypto_core.rs` is not part of the sources) succeeds exactly on 32-byte
slices, returning the key bytes. -/
def PublicKey.from_slice (bytes : List Nat) : Option (List Nat) :=
  if bytes.length = PUBLICKEYBYTES then some bytes else none

/-- Modelled from the spec: `Nonce::from_slice` succeeds exactly on 24-byte
slices. -/
def Nonce.from_slice (bytes : List Nat) : Option (List Nat) :=
  if bytes.length = NONCEBYTES then some bytes else none

/-! ## Old-format DHT types, from `src/toxcore/dht.rs` -/

/-- `PingType` from `dht.rs`: request (`0`) or response (`1`). -/
inductive PingType where
  | Req : PingType
  | Resp : PingType
deriving DecidableEq

/-- Serialized byte of a `PingType` (`self.p_type as u8`). -/
def PingType.toByte : PingType → Nat
  | .Req => 0
  | .Resp => 1

/-- `Ping` from `dht.rs`: a ping type together with a 64-bit id. -/
structure Ping where
  p_type : PingType
  id : Nat
deriving DecidableEq

/-- `PING_SIZE` from `dht.rs`. -/
def PING_SIZE : Nat := 9

/-- `Ping::new` from `dht.rs` builds a request; the random id produced by
`random_u64()` is passed in as the argument `rid`. -/
def Ping.new (rid : Nat) : Ping :=
  { p_type := PingType.Req, id := rid }

/-- `Ping::is_request` from `dht.rs`. -/
def Ping.is_request (p : Ping) : Bool :=
  p.p_type = PingType.Req

/-- `Ping::response` from `dht.rs`: `None` on a response, otherwise a
response with the same id. -/
def Ping.response (p : Ping) : Option Ping :=
  if p.p_type = PingType.Resp then none
  else some { p_type := PingType.Resp, id := p.id }

/-- `impl AsBytes for Ping` from `dht.rs`: type byte then the id bytes. -/
def Ping.as_bytes (p : Ping) : List Nat :=
  p.p_type.toByte :: u64_to_array p.id

/-- `IpType` from `dht.rs`: transport and address family of a packed node. -/
inductive IpType where
  | U4 : IpType
  | U6 : IpType
  | T4 : IpType
  | T6 : IpType
deriving DecidableEq

/-- Serialized byte of an `IpType` (`self.ip_type as u8`). -/
def IpType.toByte : IpType → Nat
  | .U4 => 2
  | .U6 => 10
  | .T4 => 130
  | .T6 => 138

/-- `impl FromBytes for IpType` from `dht.rs`: match the first byte. -/
def IpType.from_bytes (bytes : List Nat) : Option IpType :=
  match bytes with
  | [] => none
  | b :: _ =>
    match b with
    | 2 => some IpType.U4
    | 10 => some IpType.U6
    | 130 => some IpType.T4
    | 138 => some IpType.T6
    | _ => none

/-- `std::net::SocketAddr`: a v4 address is four octets and a port; a v6
address is eight 16-bit segments, a port, a flow info and a scope id
(`SocketAddrV6` carries all four fields and its equality compares them). -/
inductive SocketAddr where
  | V4 (a b c d : Nat) (port : Nat) : SocketAddr
  | V6 (segs : List Nat) (port flowinfo scope_id : Nat) : SocketAddr
deriving DecidableEq

/-- Port of a socket address. -/
def SocketAddr.port : SocketAddr → Nat
  | .V4 _ _ _ _ p => p
  | .V6 _ p _ _ => p

/-- `impl AsBytes for IpAddr` from `dht.rs`: v4 octets as-is, v6 segments
via `u16_to_array`. -/
def SocketAddr.ipBytes : SocketAddr → List Nat
  | .V4 a b c d _ => [a, b, c, d]
  | .V6 segs _ _ _ => (segs.map u16_to_array).flatten

/-- `PackedNode` from `dht.rs`: ip type, socket address and a node id. -/
structure PackedNode where
  ip_type : IpType
  socketaddr : SocketAddr
  node_id : List Nat
deriving DecidableEq

/-- `PACKED_NODE_IPV4_SIZE` from `dht.rs`. -/
def PACKED_NODE_IPV4_SIZE : Nat := PUBLICKEYBYTES + 7

/-- `PACKED_NODE_IPV6_SIZE` from `dht.rs`. -/
def PACKED_NODE_IPV6_SIZE : Nat := PUBLICKEYBYTES + 19

/-- `impl AsBytes for PackedNode` from `dht.rs`: ip type byte, address
bytes, port bytes, then the public key. -/
def PackedNode.as_bytes (n : PackedNode) : List Nat :=
  n.ip_type.toByte :: (n.socketaddr.ipBytes ++ u16_to_array n.socketaddr.port ++ n.node_id)

/-- Chunk bytes in adjacent pairs and read each pair big-endian, as the
`chunks(2)` loop with `array_to_u16` inside `Ipv6Addr::from_bytes` does. -/
def pairSegs : List Nat → List Nat
  | a :: b :: rest => array_to_u16 a b :: pairSegs rest
  | _ => []

/-- `impl FromBytes for Ipv6Addr` from `dht.rs`: fails below 16 bytes,
otherwise reads the first 16 bytes as eight big-endian segments. -/
def Ipv6Addr.from_bytes (bytes : List Nat) : Option (List Nat) :=
  if bytes.length < 16 then none
  else some (pairSegs (bytes.take 16))

/-- Local helper `as_ipv4` of `PackedNode::from_bytes` in `dht.rs`: octets
from bytes 1–4, port from bytes 5–6, key from bytes 7–38.  Its callers
guarantee at least `PACKED_NODE_IPV4_SIZE` bytes, so the fixed indexing is
in bounds. -/
def PackedNode.as_ipv4 (bytes : List Nat) : Option (SocketAddr × List Nat) :=
  let saddr := SocketAddr.V4 (bytes.getD 1 0) (bytes.getD 2 0) (bytes.getD 3 0) (bytes.getD 4 0)
    (array_to_u16 (bytes.getD 5 0) (bytes.getD 6 0))
  match PublicKey.from_slice ((bytes.drop 7).take (PACKED_NODE_IPV4_SIZE - 7)) with
  | some pk => some (saddr, pk)
  | none => none

/-- Local helper `as_ipv6` of `PackedNode::from_bytes` in `dht.rs`: fails
below `PACKED_NODE_IPV6_SIZE` bytes; the reconstructed `SocketAddrV6` has
flow info and scope id zero (`SocketAddrV6::new(addr, port, 0, 0)`). -/
def PackedNode.as_ipv6 (bytes : List Nat) : Option (SocketAddr × List Nat) :=
  if bytes.length < PACKED_NODE_IPV6_SIZE then none
  else
    match Ipv6Addr.from_bytes (bytes.drop 1) with
    | none => none
    | some segs =>
      let saddr := SocketAddr.V6 segs (array_to_u16 (bytes.getD 17 0) (bytes.getD 18 0)) 0 0
      match PublicKey.from_slice ((bytes.drop 19).take (PACKED_NODE_IPV6_SIZE - 19)) with
      | some pk => some (saddr, pk)
      | none => none

/-- `impl FromBytes for PackedNode` from `dht.rs`: needs at least 39 bytes,
dispatches on the ip type byte, then parses as v4 or v6. -/
def PackedNode.from_bytes (bytes : List Nat) : Option PackedNode :=
  if PACKED_NODE_IPV4_SIZE ≤ bytes.length then
    let parsed : Option (IpType × Option (SocketAddr × List Nat)) :=
      match IpType.from_bytes bytes with
      | some IpType.U4 => some (IpType.U4, PackedNode.as_ipv4 bytes)
      | some IpType.T4 => some (IpType.T4, PackedNode.as_ipv4 bytes)
      | some IpType.U6 => some (IpType.U6, PackedNode.as_ipv6 bytes)
      | some IpType.T6 => some (IpType.T6, PackedNode.as_ipv6 bytes)
      | none => none
    match parsed with
    | none => none
    | some (iptype, saddr_and_pk) =>
      match saddr_and_pk with
      | none => none
      | some (saddr, pk) => some { ip_type := iptype, socketaddr := saddr, node_id := pk }
  else none

/-- Number of bytes one parsed node advances the cursor by in
`PackedNode::from_bytes_multiple`. -/
def PackedNode.consumedSize (n : PackedNode) : Nat :=
  match n.ip_type with
  | IpType.U4 | IpType.T4 => PACKED_NODE_IPV4_SIZE
  | IpType.U6 | IpType.T6 => PACKED_NODE_IPV6_SIZE

/-- The `while let` loop of `PackedNode::from_bytes_multiple`: parse nodes
greedily from the front, stopping at the first failure.  The fuel argument
only bounds iteration; with fuel at least the byte count it never runs out,
since every successful parse consumes at least 39 bytes. -/
def PackedNode.multipleLoop : Nat → List Nat → List PackedNode
  | 0, _ => []
  | fuel + 1, bytes =>
    match PackedNode.from_bytes bytes with
    | none => []
    | some node => node :: PackedNode.multipleLoop fuel (bytes.drop node.consumedSize)

/-- `PackedNode::from_bytes_multiple` from `dht.rs`: fails below 39 bytes,
otherwise parses nodes until the first error and fails when none parsed. -/
def PackedNode.from_bytes_multiple (bytes : List Nat) : Option (List PackedNode) :=
  if bytes.length < PACKED_NODE_IPV4_SIZE then none
  else
    let result := PackedNode.multipleLoop bytes.length bytes
    if result = [] then none else some result

/-- `GetNodes` from `dht.rs`: target public key and request id. -/
structure GetNodes where
  pk : List Nat
  id : Nat
deriving DecidableEq

/-- `GET_NODES_SIZE` from `dht.rs`. -/
def GET_NODES_SIZE : Nat := PUBLICKEYBYTES + 8

/-- `impl AsBytes for GetNodes` from `dht.rs`: key bytes then id bytes. -/
def GetNodes.as_bytes (g : GetNodes) : List Nat :=
  g.pk ++ u64_to_array g.id

/-- `impl FromBytes for GetNodes` from `dht.rs`: fails below
`GET_NODES_SIZE` bytes, otherwise reads the first 40 bytes and ignores the
rest. -/
def GetNodes.from_bytes (bytes : List Nat) : Option GetNodes :=
  if bytes.length < GET_NODES_SIZE then none
  else
    match PublicKey.from_slice (bytes.take PUBLICKEYBYTES) with
    | some pk => some { pk := pk, id := array_to_u64 ((bytes.drop PUBLICKEYBYTES).take 8) }
    | none => none

/-- `SendNodes` from `dht.rs`: one to four nodes and the echoed id. -/
structure SendNodes where
  nodes : List PackedNode
  id : Nat
deriving DecidableEq

/-- `impl AsBytes for SendNodes` from `dht.rs`: node count byte, the
serialized nodes, then the id bytes. -/
def SendNodes.as_bytes (s : SendNodes) : List Nat :=
  s.nodes.length :: ((s.nodes.map PackedNode.as_bytes).flatten ++ u64_to_array s.id)

/-- `impl FromBytes for SendNodes` from `dht.rs`.  The function reads
`bytes[0]` without a length check and later reads the eight ping-id bytes
at `bytes[nodes_bytes_len + pos]` without a bounds check; both indexing
operations panic when the slice is too short, which `PResult.panicked`
records. -/
def SendNodes.from_bytes (bytes : List Nat) : PResult SendNodes :=
  match bytes with
  | [] => PResult.panicked
  | b0 :: rest =>
    if b0 < 1 ∨ 4 < b0 then PResult.ok none
    else
      match PackedNode.from_bytes_multiple rest with
      | some nodes =>
        if 4 < nodes.length then PResult.ok none
        else
          let nodes_bytes_len := 1 + (nodes.map (fun n => n.as_bytes.length)).sum
          if bytes.length < nodes_bytes_len + 8 then PResult.panicked
          else
            PResult.ok (some (SendNodes.mk nodes
              (array_to_u64 ((bytes.drop nodes_bytes_len).take 8))))
      | none => PResult.ok none

/-- `DPacketT` from `dht.rs`: payload variants of the old DHT packet. -/
inductive DPacketT where
  | Ping : Ping → DPacketT
  | GetNodes : GetNodes → DPacketT
  | SendNodes : SendNodes → DPacketT
deriving DecidableEq

/-- `DPacketTnum` from `dht.rs`: packet kind numbers. -/
inductive DPacketTnum where
  | PingReq : DPacketTnum
  | PingResp : DPacketTnum
  | GetN : DPacketTnum
  | SendN : DPacketTnum
deriving DecidableEq

/-- Serialized kind byte of a `DPacketTnum`. -/
def DPacketTnum.toByte : DPacketTnum → Nat
  | .PingReq => 0
  | .PingResp => 1
  | .GetN => 2
  | .SendN => 4

/-- `DPacketT::as_type` from `dht.rs`. -/
def DPacketT.as_type : DPacketT → DPacketTnum
  | .GetNodes _ => DPacketTnum.GetN
  | .SendNodes _ => DPacketTnum.SendN
  | .Ping p => if p.is_request then DPacketTnum.PingReq else DPacketTnum.PingResp

/-- `impl AsBytes for DPacketT` from `dht.rs`. -/
def DPacketT.as_bytes : DPacketT → List Nat
  | .Ping d => d.as_bytes
  | .GetNodes d => d.as_bytes
  | .SendNodes d => d.as_bytes

/-- `DhtPacket` from `dht.rs`: kind byte, sender key, nonce and the sealed
payload. -/
structure DhtPacket where
  packet_type : DPacketTnum
  sender_pk : List Nat
  nonce : List Nat
  payload : List Nat
deriving DecidableEq

/-- `DhtPacket::new` from `dht.rs`: seals the serialized payload with the
caller's secret key.  The crypto `seal` primitive is passed in as a
function of plaintext, nonce, receiver key and secret key. -/
def DhtPacket.new (sealFn : List Nat → List Nat → List Nat → List Nat → List Nat)
    (own_secret_key own_public_key receiver_public_key nonce : List Nat)
    (packet : DPacketT) : DhtPacket :=
  { packet_type := packet.as_type,
    sender_pk := own_public_key,
    nonce := nonce,
    payload := sealFn packet.as_bytes nonce receiver_public_key own_secret_key }

/-- `impl AsBytes for DhtPacket` from `dht.rs`: kind byte, sender key,
nonce, then the encrypted payload. -/
def DhtPacket.as_bytes (p : DhtPacket) : List Nat :=
  p.packet_type.toByte :: (p.sender_pk ++ p.nonce ++ p.payload)

/-! ## State-file section kinds, from
`src/toxcore/state_format/old_state_format.rs` -/

/-- `SectionKind` from `old_state_format.rs`. -/
inductive SectionKind where
  | NospamKeys : SectionKind
  | DHT : SectionKind
  | Friends : SectionKind
  | Name : SectionKind
  | StatusMsg : SectionKind
  | Status : SectionKind
  | TcpRelays : SectionKind
  | PathNodes : SectionKind
  | EOF : SectionKind
deriving DecidableEq

/-- `impl FromBytes for SectionKind` from `old_state_format.rs`: matches
`bytes[0]` without checking that the slice is nonempty, so the empty input
panics. -/
def SectionKind.from_bytes (bytes : List Nat) : PResult SectionKind :=
  match bytes with
  | [] => PResult.panicked
  | b :: _ =>
    PResult.ok (match b with
      | 1 => some SectionKind.NospamKeys
      | 2 => some SectionKind.DHT
      | 3 => some SectionKind.Friends
      | 4 => some SectionKind.Name
      | 5 => some SectionKind.StatusMsg
      | 6 => some SectionKind.Status
      | 10 => some SectionKind.TcpRelays
      | 11 => some SectionKind.PathNodes
      | 255 => some SectionKind.EOF
      | _ => none)

/-! ## Nom-style parsers of the new packet format -/

/-- The nom `take!` combinator: split off the first `n` bytes, failing when
fewer are available. -/
def takeBytes (n : Nat) (bytes : List Nat) : Option (List Nat × List Nat) :=
  if n ≤ bytes.length then some (bytes.take n, bytes.drop n) else none

/-- `impl FromBytes for NodesRequestPayload` from
`src/toxcore/dht/packet/nodes_request.rs`: a 32-byte public key, a
big-endian `u64` id, then `eof!`, which fails unless the input is fully
consumed. -/
def NodesRequestPayload.from_bytes (bytes : List Nat) : Option GetNodes :=
  match takeBytes PUBLICKEYBYTES bytes with
  | none => none
  | some (pk, r1) =>
    match takeBytes 8 r1 with
    | none => none
    | some (idb, r2) =>
      match r2 with
      | [] => some { pk := pk, id := array_to_u64 idb }
      | _ => none

/-- Modelled from the spec: `ONION_MAX_PACKET_SIZE` (1400), declared in the
onion packet module that is not among the sources. -/
def ONION_MAX_PACKET_SIZE : Nat := 1400

/-- `OnionDataResponse` from
`src/toxcore/onion/packet/onion_data_response.rs`. -/
structure OnionDataResponse where
  nonce : List Nat
  temporary_pk : List Nat
  payload : List Nat
deriving DecidableEq

/-- `impl FromBytes for OnionDataResponse`: first verifies that the whole
input is at most `ONION_MAX_PACKET_SIZE` bytes, then reads the `0x86` tag,
a 24-byte nonce, a 32-byte key and the remaining payload. -/
def OnionDataResponse.from_bytes (bytes : List Nat) : Option OnionDataResponse :=
  if ONION_MAX_PACKET_SIZE < bytes.length then none
  else
    match bytes with
    | 134 :: r0 =>
      match takeBytes NONCEBYTES r0 with
      | none => none
      | some (nonce, r1) =>
        match takeBytes PUBLICKEYBYTES r1 with
        | none => none
        | some (pk, r2) => some { nonce := nonce, temporary_pk := pk, payload := r2 }
    | _ => none

/-- Modelled from the spec: `IpPort` of the onion packet module (not among
the sources): a type byte, 16 address bytes (a v4 address is padded with 12
zero bytes), and a big-endian port — 19 bytes in total. -/
structure IpPort where
  protocol : IpType
  addr : List Nat
  port : Nat
deriving DecidableEq

/-- Modelled from the spec: `IpPort::from_bytes` reads the type byte, 16
address bytes and the 2 port bytes. -/
def IpPort.from_bytes (bytes : List Nat) : Option (IpPort × List Nat) :=
  match IpType.from_bytes bytes with
  | none => none
  | some t =>
    match takeBytes 16 (bytes.drop 1) with
    | none => none
    | some (addr, r1) =>
      match takeBytes 2 r1 with
      | none => none
      | some (pb, r2) =>
        some (IpPort.mk t addr (array_to_u16 (pb.getD 0 0) (pb.getD 1 0)), r2)

/-- `OnionRequest` from `src/toxcore/tcp/packet/onion_request.rs`. -/
structure TcpOnionRequest where
  nonce : List Nat
  ip_port : IpPort
  temporary_pk : List Nat
  payload : List Nat
deriving DecidableEq

/-- `impl FromBytes for OnionRequest` (TCP) from
`src/toxcore/tcp/packet/onion_request.rs`: the `0x08` tag, a 24-byte nonce,
an `IpPort`, a 32-byte key and the remaining payload.  Unlike the onion
UDP parsers it performs no maximum-size check. -/
def TcpOnionRequest.from_bytes (bytes : List Nat) : Option TcpOnionRequest :=
  match bytes with
  | 8 :: r0 =>
    match takeBytes NONCEBYTES r0 with
    | none => none
    | some (nonce, r1) =>
      match IpPort.from_bytes r1 with
      | none => none
      | some (ipp, r2) =>
        match takeBytes PUBLICKEYBYTES r2 with
        | none => none
        | some (pk, r3) => some { nonce := nonce, ip_port := ipp, temporary_pk := pk, payload := r3 }
  | _ => none

/-! ## DHT friend maintenance, from `src/toxcore/dht/dht_friend.rs` -/

/-- Modelled from the spec: `MAX_BOOTSTRAP_TIMES = 5`, declared in the DHT
server module that is not among the sources. -/
def MAX_BOOTSTRAP_TIMES : Nat := 5

/-- One close-list entry as `send_nodes_req_random` sees it: the node's
public key paired with the elapsed time of the node's `last_resp_time` in
the ping map (the `or_insert_with(PingData::new)` lookup makes the lookup
total, a fresh entry having elapsed time zero). -/
structure CloseNodeInfo where
  pk : List Nat
  lastRespElapsed : Nat
deriving DecidableEq

/-- Mutable state of a `DhtFriend` touched by `send_nodes_req_random`:
the friend's key, the bootstrap counter and the time of the last
NodesRequest. -/
structure DhtFriendSt where
  pk : List Nat
  bootstrap_times : Nat
  last_nodes_req_time : Nat
deriving DecidableEq

/-- `DhtFriend::new` from `dht_friend.rs`, restricted to the fields the
claims are about: the counter starts at the supplied `bootstrap_times` and
`last_nodes_req_time` at the current instant. -/
def DhtFriendSt.new (pk : List Nat) (bootstrap_times now : Nat) : DhtFriendSt :=
  { pk := pk, bootstrap_times := bootstrap_times, last_nodes_req_time := now }

/-- A NodesRequest emission: the searched public key (the friend's) and the
recipient node's public key. -/
structure NodesReqEmission where
  target : List Nat
  recipient : List Nat
deriving DecidableEq

/-- The good-node filter of `send_nodes_req_random`: nodes whose
`last_resp_time` elapsed strictly less than `bad_node_timeout` ago. -/
def goodNodesOf (badNodeTimeout : Nat) (closeNodes : List CloseNodeInfo) :
    List CloseNodeInfo :=
  closeNodes.filter (fun n => n.lastRespElapsed < badNodeTimeout)

/-- The recipient index computed by `send_nodes_req_random`: sample
`random_u32() % num_nodes`, then, when nonzero, decrease it by
`random_u32() % (random_node + 1)`. -/
def chosenIndex (numNodes r1 r2 : Nat) : Nat :=
  let r := r1 % numNodes
  if r ≠ 0 then r - r2 % (r + 1) else r

/-- `DhtFriend::send_nodes_req_random` from `dht_friend.rs`.  Inputs that
the Rust method draws from its environment are explicit: the configured
`bad_node_timeout` and `nodes_req_interval`, the current instant `now`, the
friend's close nodes with their ping-map data, and the two `random_u32()`
draws `r1` and `r2`.  Returns the emitted request (if any) and the updated
friend state.  The `good_nodes[random_node]` index is proved in bounds
below, and the `ping_map.get_mut` lookup always succeeds because the
filtering pass inserted the entry, so its error branch is dead. -/
def sendNodesReqRandom (badNodeTimeout nodesReqInterval now : Nat)
    (closeNodes : List CloseNodeInfo) (r1 r2 : Nat)
    (f : DhtFriendSt) : Option NodesReqEmission × DhtFriendSt :=
  let goodNodes := goodNodesOf badNodeTimeout closeNodes
  if goodNodes ≠ [] ∧ nodesReqInterval ≤ now - f.last_nodes_req_time
      ∧ f.bootstrap_times < MAX_BOOTSTRAP_TIMES then
    let idx := chosenIndex goodNodes.length r1 r2
    let node := goodNodes.getD idx { pk := [], lastRespElapsed := 0 }
    (some { target := f.pk, recipient := node.pk },
     { pk := f.pk, bootstrap_times := f.bootstrap_times + 1, last_nodes_req_time := now })
  else (none, f)

/-- Environment of one `send_nodes_req_random` call: configuration, clock,
close-node snapshot and random draws. -/
structure RandomReqCall where
  badNodeTimeout : Nat
  nodesReqInterval : Nat
  now : Nat
  closeNodes : List CloseNodeInfo
  r1 : Nat
  r2 : Nat

/-- Run a sequence of `send_nodes_req_random` calls, counting how many
random NodesRequest probes get emitted. -/
def runRandomReqCalls : List RandomReqCall → DhtFriendSt → Nat × DhtFriendSt
  | [], f => (0, f)
  | c :: cs, f =>
    ((if (sendNodesReqRandom c.badNodeTimeout c.nodesReqInterval c.now c.closeNodes c.r1 c.r2 f).1.isSome
        then 1 else 0) +
      (runRandomReqCalls cs
        (sendNodesReqRandom c.badNodeTimeout c.nodesReqInterval c.now c.closeNodes c.r1 c.r2 f).2).1,
     (runRandomReqCalls cs
       (sendNodesReqRandom c.badNodeTimeout c.nodesReqInterval c.now c.closeNodes c.r1 c.r2 f).2).2)

/-! ## Ping sender, from `src/toxcore/dht/server/ping_sender.rs`, with the
k-bucket containers modelled from the spec -/

/-- Node entry of the new packet format (`packed_node.rs`, not among the
sources): a public key and a socket address. -/
structure DNode where
  pk : List Nat
  saddr : SocketAddr
deriving DecidableEq

/-- Modelled from the spec: the 256-bit XOR distance of two public keys,
interpreted big-endian (a lexicographic byte comparison of the XOR equals
the numeric comparison of this value). -/
def distNat (base pk : List Nat) : Nat :=
  (List.zipWith (fun a b => Nat.xor a b) base pk).foldl (fun acc b => acc * 256 + b) 0

/-- Modelled from the spec: a `Bucket` is an ordered sequence of at most
`capacity` nodes, sorted nearest-first to a base key. -/
structure Bucket where
  capacity : Nat
  nodes : List DNode
deriving DecidableEq

/-- Modelled from the spec: `Bucket::new(None)` makes an empty bucket with
the default capacity 8. -/
def Bucket.new : Bucket :=
  { capacity := 8, nodes := [] }

/-- Modelled from the spec: insert a node before the first stored node that
is farther from the base, keeping the nearest-first order. -/
def insertSorted (base : List Nat) (node : DNode) : List DNode → List DNode
  | [] => [node]
  | x :: xs =>
    if distNat base node.pk < distNat base x.pk then node :: x :: xs
    else x :: insertSorted base node xs

/-- Modelled from the spec: `Bucket::try_add` — update the address when the
key is already present; insert when below capacity; replace the farthest
node when the new node is closer; otherwise refuse. -/
def Bucket.try_add (base : List Nat) (node : DNode) (b : Bucket) : Bool × Bucket :=
  if b.nodes.any (fun x => x.pk == node.pk) then
    (true, { capacity := b.capacity,
             nodes := b.nodes.map (fun x => if x.pk == node.pk then node else x) })
  else if b.nodes.length < b.capacity then
    (true, { capacity := b.capacity, nodes := insertSorted base node b.nodes })
  else
    match b.nodes.getLast? with
    | some far =>
      if distNat base node.pk < distNat base far.pk then
        (true, { capacity := b.capacity, nodes := insertSorted base node b.nodes.dropLast })
      else (false, b)
    | none => (false, b)

/-- Modelled from the spec: whether `Bucket::try_add` would succeed — the
key is present already, or there is room, or the node is closer than the
farthest stored node. -/
def Bucket.can_add (base : List Nat) (node : DNode) (b : Bucket) : Bool :=
  b.nodes.any (fun x => x.pk == node.pk) || decide (b.nodes.length < b.capacity) ||
    (match b.nodes.getLast? with
     | some far => decide (distNat base node.pk < distNat base far.pk)
     | none => false)

/-- Modelled from the spec: a `Kbucket` holds buckets indexed by the
position of the first differing bit between the stored key and the base
key. -/
structure Kbucket where
  pk : List Nat
  buckets : List Bucket

/-- Modelled from the spec: the bucket index of a key is
`256 − bit-length of the XOR distance`. -/
def kbucketIndex (own other : List Nat) : Nat :=
  255 - Nat.log2 (distNat own other)

/-- Modelled from the spec: `Kbucket::find_node` scans all buckets for the
given public key. -/
def Kbucket.find_node (k : Kbucket) (pkq : List Nat) : Option DNode :=
  ((k.buckets.map Bucket.nodes).flatten).find? (fun x => x.pk == pkq)

/-- Modelled from the spec: `Kbucket::can_add` delegates to the bucket at
the key's index; a key equal to the base key (zero distance) has no bucket
and cannot be added. -/
def Kbucket.can_add (k : Kbucket) (node : DNode) : Bool :=
  if distNat k.pk node.pk = 0 then false
  else Bucket.can_add k.pk node (k.buckets.getD (kbucketIndex k.pk node.pk) Bucket.new)

/-- One friend as `PingSender::try_add` sees it: the friend's key and the
friend's close-node bucket. -/
structure FriendEntry where
  pk : List Nat
  close_nodes : Bucket

/-- The server state read by `PingSender::try_add`: own key, the close-node
k-buckets, the friend list, the configured `bad_node_timeout` and the
per-key elapsed time since `last_resp_time` in the ping map (the lookup
behind `is_bad_node_timed_out`). -/
structure ServerSt where
  pk : List Nat
  close_nodes : Kbucket
  friends : List FriendEntry
  badNodeTimeout : Nat
  respElapsed : List Nat → Nat

/-- Modelled from the spec: a node is timed out as bad when the elapsed
time since its last response reaches `bad_node_timeout`. -/
def isBadNodeTimedOut (s : ServerSt) (n : DNode) : Bool :=
  decide (s.badNodeTimeout ≤ s.respElapsed n.pk)

/-- `PingSender::is_friend` from `ping_sender.rs`. -/
def isFriend (s : ServerSt) (node : DNode) : Bool :=
  s.friends.any (fun fr => fr.pk == node.pk)

/-- `PingSender::is_in_close_list` from `ping_sender.rs`. -/
def isInCloseList (s : ServerSt) (node : DNode) : Bool :=
  s.friends.any (fun fr => fr.close_nodes.nodes.any (fun peer => peer.pk == node.pk))

/-- `PingSender` state from `ping_sender.rs`: the pending bucket and the
last flush instant. -/
structure PingSender where
  last_time_send_ping : Nat
  nodes_to_send_ping : Bucket

/-- `PingSender::is_in_ping_list` from `ping_sender.rs`. -/
def PingSender.is_in_ping_list (p : PingSender) (node : DNode) : Bool :=
  p.nodes_to_send_ping.nodes.any (fun peer => peer.pk == node.pk)

/-- `PingSender::try_add` from `ping_sender.rs`.  The result is the
returned boolean, the new `PingSender` state, and whether an immediate
direct PingRequest was sent (`server.send_ping_req`). -/
def PingSender.try_add (s : ServerSt) (node : DNode) (p : PingSender) :
    Bool × PingSender × Bool :=
  if (match s.close_nodes.find_node node.pk with
      | some found => !isBadNodeTimedOut s found
      | none => false) then (false, p, false)
  else if !s.close_nodes.can_add node then (false, p, false)
  else if isFriend s node && !isInCloseList s node then (false, p, true)
  else if p.is_in_ping_list node then (false, p, false)
  else
    let r := Bucket.try_add s.pk node p.nodes_to_send_ping
    (r.1, { last_time_send_ping := p.last_time_send_ping, nodes_to_send_ping := r.2 }, false)

/-! ## Well-formedness predicates used in theorem statements -/

/-- Whether the `ip_type` family of a packed node matches its socket
address family (an invariant stated by the spec; `PackedNode::new` does not
enforce it). -/
def familyMatches (n : PackedNode) : Bool :=
  match n.ip_type, n.socketaddr with
  | IpType.U4, SocketAddr.V4 _ _ _ _ _ => true
  | IpType.T4, SocketAddr.V4 _ _ _ _ _ => true
  | IpType.U6, SocketAddr.V6 _ _ _ _ => true
  | IpType.T6, SocketAddr.V6 _ _ _ _ => true
  | _, _ => false

/-- Range constraints that Rust's types enforce on a `PackedNode`: the key
is 32 bytes, the port a `u16`, and a v6 address has eight `u16`
segments. -/
def PackedNode.wf (n : PackedNode) : Bool :=
  n.node_id.length == 32 &&
  (match n.socketaddr with
   | SocketAddr.V4 _ _ _ _ p => decide (p < 65536)
   | SocketAddr.V6 segs p _ _ =>
     segs.length == 8 && segs.all (fun s => decide (s < 65536)) && decide (p < 65536))

/-- Whether the flow info and scope id of a v6 socket address are zero (a
v4 address has none). -/
def zeroV6Extras (n : PackedNode) : Bool :=
  match n.socketaddr with
  | SocketAddr.V4 _ _ _ _ _ => true
  | SocketAddr.V6 _ _ flowinfo scope_id => flowinfo == 0 && scope_id == 0

/-- Whether a node's socket address is v4 and its key 32 bytes long. -/
def isV4Node (n : PackedNode) : Bool :=
  (match n.socketaddr with
   | SocketAddr.V4 _ _ _ _ _ => true
   | SocketAddr.V6 _ _ _ _ => false) && n.node_id.length == 32

/-- Reading back the two big-endian bytes of a `u16` gives the value. -/
theorem array_to_u16_u16_to_array (p : Nat) (hp : p < 65536) :
    array_to_u16 (p / 256 % 256) (p % 256) = p := by
  unfold array_to_u16
  omega

/-- A list of length `m + 1` splits off a head. -/
theorem exists_cons_of_length_succ (l : List Nat) (m : Nat) (h : l.length = m + 1) :
    ∃ a t, l = a :: t ∧ t.length = m := by
  cases l with
  | nil => simp at h
  | cons a t => exact ⟨a, t, rfl, by simpa using h⟩

/-- A successful `PackedNode::from_bytes` needs at least 39 bytes. -/
theorem from_bytes_some_length (bytes : List Nat) (n : PackedNode)
    (h : PackedNode.from_bytes bytes = some n) :
    PACKED_NODE_IPV4_SIZE ≤ bytes.length := by
  unfold PackedNode.from_bytes at h
  by_cases hge : PACKED_NODE_IPV4_SIZE ≤ bytes.length
  · exact hge
  · simp [hge] at h

/-- A v4 node with a 32-byte key serializes to 39 bytes. -/
theorem as_bytes_length_v4 (n : PackedNode) (h : isV4Node n = true) :
    n.as_bytes.length = PACKED_NODE_IPV4_SIZE := by
  obtain ⟨t, saddr, pk⟩ := n
  cases saddr with
  | V4 a b c d p =>
    simp [isV4Node] at h
    simp [PackedNode.as_bytes, SocketAddr.ipBytes, u16_to_array, SocketAddr.port,
      PACKED_NODE_IPV4_SIZE, PUBLICKEYBYTES, h]
  | V6 segs p fi sid =>
    simp [isV4Node] at h

/-- One step of `send_nodes_req_random` either emits and increments the
counter or leaves the state unchanged. -/
theorem sendNodesReqRandom_cases (bt ni now : Nat) (cn : List CloseNodeInfo)
    (r1 r2 : Nat) (f : DhtFriendSt) :
    ((sendNodesReqRandom bt ni now cn r1 r2 f).1.isSome = true ∧
      f.bootstrap_times < MAX_BOOTSTRAP_TIMES ∧
      (sendNodesReqRandom bt ni now cn r1 r2 f).2.bootstrap_times = f.bootstrap_times + 1) ∨
    ((sendNodesReqRandom bt ni now cn r1 r2 f).1 = none ∧
      (sendNodesReqRandom bt ni now cn r1 r2 f).2 = f) := by
  by_cases hc : (goodNodesOf bt cn ≠ [] ∧ ni ≤ now - f.last_nodes_req_time ∧
      f.bootstrap_times < MAX_BOOTSTRAP_TIMES)
  · left
    simp [sendNodesReqRandom, hc]
  · right
    simp [sendNodesReqRandom, hc]

/-- The probes emitted over a run never exceed what is left of the
bootstrap budget. -/
theorem runRandom_le (calls : List RandomReqCall) (f : DhtFriendSt) :
    (runRandomReqCalls calls f).1 ≤ MAX_BOOTSTRAP_TIMES - f.bootstrap_times := by
  induction calls generalizing f with
  | nil => simp [runRandomReqCalls]
  | cons c cs ih =>
    unfold runRandomReqCalls
    rcases sendNodesReqRandom_cases c.badNodeTimeout c.nodesReqInterval c.now c.closeNodes c.r1 c.r2 f with
      ⟨hsome, hlt, hbt⟩ | ⟨hnone, hst⟩
    · have hih := ih (sendNodesReqRandom c.badNodeTimeout c.nodesReqInterval c.now c.closeNodes c.r1 c.r2 f).2
      rw [hbt] at hih
      simp only [hsome, if_true]
      omega
    · have hih := ih f
      rw [hst, hnone]
      simp only [Option.isSome_none, Bool.false_eq_true, if_false]
      omega

/-! ## Claim theorems -/

/-- C1: the claim says every packet deserializer returns a value without
panicking on malformed or truncated input.  The code violates this:
`SendNodes::from_bytes` indexes `bytes[0]` on the empty slice and the
ping-id bytes past a truncated node list, and `SectionKind::from_bytes`
indexes `bytes[0]` on the empty slice — all of these panic. -/
theorem c1_parsers_panic :
    SendNodes.from_bytes [] = PResult.panicked ∧
    SectionKind.from_bytes [] = PResult.panicked ∧
    SendNodes.from_bytes (1 :: 2 :: List.replicate 38 0) = PResult.panicked := by
  refine ⟨rfl, rfl, by decide⟩

/-- A family-matching v6 node with nonzero flow info, used to refute the
unamended C2 roundtrip claim. -/
def c2Node : PackedNode :=
  PackedNode.mk IpType.U6 (SocketAddr.V6 (List.replicate 8 0) 33445 1 0) (List.replicate 32 0)

/-- C2 counterexample: a v6 `PackedNode` whose family matches but whose
flow info is nonzero does not survive the roundtrip, because
`from_bytes` rebuilds the address with `SocketAddrV6::new(addr, port, 0, 0)`. -/
theorem c2_counterexample :
    familyMatches c2Node = true ∧ PackedNode.from_bytes c2Node.as_bytes ≠ some c2Node := by
  constructor <;> decide

/-- C2 (amended): for every well-formed `PackedNode` whose ip type family
matches its socket address family and whose v6 flow info and scope id are
zero, `from_bytes` of `as_bytes` returns the node, and the serialized form
is exactly 39 bytes for IPv4 and 51 bytes for IPv6. -/
theorem c2_roundtrip (n : PackedNode) (hwf : n.wf = true) (hfam : familyMatches n = true)
    (hz : zeroV6Extras n = true) :
    PackedNode.from_bytes n.as_bytes = some n ∧
    n.as_bytes.length =
      (match n.socketaddr with
       | SocketAddr.V4 _ _ _ _ _ => PACKED_NODE_IPV4_SIZE
       | SocketAddr.V6 _ _ _ _ => PACKED_NODE_IPV6_SIZE) := by
  obtain ⟨t, saddr, pk⟩ := n
  cases saddr with
  | V4 a b c d p =>
    simp only [PackedNode.wf, Bool.and_eq_true, beq_iff_eq, decide_eq_true_eq] at hwf
    obtain ⟨hpk, hport⟩ := hwf
    have hlen : (PackedNode.as_bytes ⟨t, SocketAddr.V4 a b c d p, pk⟩).length =
        PACKED_NODE_IPV4_SIZE := by
      simp [PackedNode.as_bytes, SocketAddr.ipBytes, u16_to_array, SocketAddr.port,
        PACKED_NODE_IPV4_SIZE, PUBLICKEYBYTES, hpk]
    cases t with
    | U6 => simp [familyMatches] at hfam
    | T6 => simp [familyMatches] at hfam
    | U4 =>
      refine ⟨?_, by simpa using hlen⟩
      simp only [PackedNode.as_bytes, SocketAddr.ipBytes, u16_to_array, SocketAddr.port,
        IpType.toByte, List.cons_append, List.nil_append]
      unfold PackedNode.from_bytes
      rw [if_pos (by simp [PACKED_NODE_IPV4_SIZE, PUBLICKEYBYTES, hpk])]
      simp only [IpType.from_bytes]
      unfold PackedNode.as_ipv4
      simp only [List.getD_cons_succ, List.getD_cons_zero, List.drop_succ_cons, List.drop_zero,
        PACKED_NODE_IPV4_SIZE, PUBLICKEYBYTES]
      rw [show (32 + 7 - 7 : Nat) = 32 from rfl, ← hpk, List.take_length]
      simp [PublicKey.from_slice, hpk, PUBLICKEYBYTES, array_to_u16_u16_to_array p hport]
    | T4 =>
      refine ⟨?_, by simpa using hlen⟩
      simp only [PackedNode.as_bytes, SocketAddr.ipBytes, u16_to_array, SocketAddr.port,
        IpType.toByte, List.cons_append, List.nil_append]
      unfold PackedNode.from_bytes
      rw [if_pos (by simp [PACKED_NODE_IPV4_SIZE, PUBLICKEYBYTES, hpk])]
      simp only [IpType.from_bytes]
      unfold PackedNode.as_ipv4
      simp only [List.getD_cons_succ, List.getD_cons_zero, List.drop_succ_cons, List.drop_zero,
        PACKED_NODE_IPV4_SIZE, PUBLICKEYBYTES]
      rw [show (32 + 7 - 7 : Nat) = 32 from rfl, ← hpk, List.take_length]
      simp [PublicKey.from_slice, hpk, PUBLICKEYBYTES, array_to_u16_u16_to_array p hport]
  | V6 segs p fi sid =>
    simp only [PackedNode.wf, Bool.and_eq_true, beq_iff_eq, decide_eq_true_eq,
      List.all_eq_true] at hwf
    obtain ⟨hpk, ⟨hsegs8, hsegsb⟩, hport⟩ := hwf
    simp only [zeroV6Extras, Bool.and_eq_true, beq_iff_eq] at hz
    obtain ⟨hfi, hsid⟩ := hz
    subst hfi hsid
    obtain ⟨s0, r0, rfl, hl0⟩ := exists_cons_of_length_succ segs 7 hsegs8
    obtain ⟨s1, r1, rfl, hl1⟩ := exists_cons_of_length_succ r0 6 hl0
    obtain ⟨s2, r2, rfl, hl2⟩ := exists_cons_of_length_succ r1 5 hl1
    obtain ⟨s3, r3, rfl, hl3⟩ := exists_cons_of_length_succ r2 4 hl2
    obtain ⟨s4, r4, rfl, hl4⟩ := exists_cons_of_length_succ r3 3 hl3
    obtain ⟨s5, r5, rfl, hl5⟩ := exists_cons_of_length_succ r4 2 hl4
    obtain ⟨s6, r6, rfl, hl6⟩ := exists_cons_of_length_succ r5 1 hl5
    obtain ⟨s7, r7, rfl, hl7⟩ := exists_cons_of_length_succ r6 0 hl6
    obtain rfl : r7 = [] := List.length_eq_zero.mp hl7
    have h0 := hsegsb s0 (by simp)
    have h1 := hsegsb s1 (by simp)
    have h2 := hsegsb s2 (by simp)
    have h3 := hsegsb s3 (by simp)
    have h4 := hsegsb s4 (by simp)
    have h5 := hsegsb s5 (by simp)
    have h6 := hsegsb s6 (by simp)
    have h7 := hsegsb s7 (by simp)
    have hlen : (PackedNode.as_bytes
        ⟨t, SocketAddr.V6 [s0, s1, s2, s3, s4, s5, s6, s7] p 0 0, pk⟩).length =
        PACKED_NODE_IPV6_SIZE := by
      simp [PackedNode.as_bytes, SocketAddr.ipBytes, u16_to_array, SocketAddr.port,
        PACKED_NODE_IPV6_SIZE, PUBLICKEYBYTES, hpk]
    cases t with
    | U4 => simp [familyMatches] at hfam
    | T4 => simp [familyMatches] at hfam
    | U6 =>
      refine ⟨?_, by simpa using hlen⟩
      simp only [PackedNode.as_bytes, SocketAddr.ipBytes, u16_to_array, SocketAddr.port,
        IpType.toByte, List.map_cons, List.map_nil, List.flatten, List.cons_append,
        List.nil_append]
      unfold PackedNode.from_bytes
      rw [if_pos (by simp [PACKED_NODE_IPV4_SIZE, PUBLICKEYBYTES, hpk])]
      simp only [IpType.from_bytes]
      unfold PackedNode.as_ipv6
      rw [if_neg (by simp [PACKED_NODE_IPV6_SIZE, PUBLICKEYBYTES, hpk])]
      unfold Ipv6Addr.from_bytes
      simp only [List.drop_succ_cons, List.drop_zero]
      rw [if_neg (by simp [hpk])]
      simp only [List.take_succ_cons, List.take_zero, pairSegs, List.getD_cons_succ,
        List.getD_cons_zero, PACKED_NODE_IPV6_SIZE, PUBLICKEYBYTES]
      rw [show (32 + 19 - 19 : Nat) = 32 from rfl, ← hpk, List.take_length]
      simp [PublicKey.from_slice, hpk, PUBLICKEYBYTES, array_to_u16_u16_to_array p hport,
        array_to_u16_u16_to_array s0 h0, array_to_u16_u16_to_array s1 h1,
        array_to_u16_u16_to_array s2 h2, array_to_u16_u16_to_array s3 h3,
        array_to_u16_u16_to_array s4 h4, array_to_u16_u16_to_array s5 h5,
        array_to_u16_u16_to_array s6 h6, array_to_u16_u16_to_array s7 h7]
    | T6 =>
      refine ⟨?_, by simpa using hlen⟩
      simp only [PackedNode.as_bytes, SocketAddr.ipBytes, u16_to_array, SocketAddr.port,
        IpType.toByte, List.map_cons, List.map_nil, List.flatten, List.cons_append,
        List.nil_append]
      unfold PackedNode.from_bytes
      rw [if_pos (by simp [PACKED_NODE_IPV4_SIZE, PUBLICKEYBYTES, hpk])]
      simp only [IpType.from_bytes]
      unfold PackedNode.as_ipv6
      rw [if_neg (by simp [PACKED_NODE_IPV6_SIZE, PUBLICKEYBYTES, hpk])]
      unfold Ipv6Addr.from_bytes
      simp only [List.drop_succ_cons, List.drop_zero]
      rw [if_neg (by simp [hpk])]
      simp only [List.take_succ_cons, List.take_zero, pairSegs, List.getD_cons_succ,
        List.getD_cons_zero, PACKED_NODE_IPV6_SIZE, PUBLICKEYBYTES]
      rw [show (32 + 19 - 19 : Nat) = 32 from rfl, ← hpk, List.take_length]
      simp [PublicKey.from_slice, hpk, PUBLICKEYBYTES, array_to_u16_u16_to_array p hport,
        array_to_u16_u16_to_array s0 h0, array_to_u16_u16_to_array s1 h1,
        array_to_u16_u16_to_array s2 h2, array_to_u16_u16_to_array s3 h3,
        array_to_u16_u16_to_array s4 h4, array_to_u16_u16_to_array s5 h5,
        array_to_u16_u16_to_array s6 h6, array_to_u16_u16_to_array s7 h7]

/-- A well-formed v4 node used to witness the amended C2 roundtrip. -/
def c2GoodNode : PackedNode :=
  PackedNode.mk IpType.U4 (SocketAddr.V4 127 0 0 1 33445) (List.replicate 32 5)

/-- C2 witness: the amended roundtrip at a concrete v4 node. -/
theorem c2_roundtrip_witness :
    PackedNode.from_bytes c2GoodNode.as_bytes = some c2GoodNode ∧
    c2GoodNode.as_bytes.length =
      (match c2GoodNode.socketaddr with
       | SocketAddr.V4 _ _ _ _ _ => PACKED_NODE_IPV4_SIZE
       | SocketAddr.V6 _ _ _ _ => PACKED_NODE_IPV6_SIZE) :=
  c2_roundtrip c2GoodNode (by decide) (by decide) (by decide)

/-- C3 (amended): `OnionDataResponse::from_bytes` rejects every input
longer than `ONION_MAX_PACKET_SIZE` bytes (the TCP `OnionRequest` parser,
by contrast, has no such check — see the counterexample). -/
theorem c3_onion_data_response_size_limit (bytes : List Nat)
    (h : ONION_MAX_PACKET_SIZE < bytes.length) :
    OnionDataResponse.from_bytes bytes = none := by
  simp [OnionDataResponse.from_bytes, h]

/-- C3 witness: a 1401-byte input is rejected by `OnionDataResponse`. -/
theorem c3_onion_data_response_size_limit_witness :
    ONION_MAX_PACKET_SIZE < (List.replicate 1401 0).length ∧
    OnionDataResponse.from_bytes (List.replicate 1401 0) = none := by
  have h : ONION_MAX_PACKET_SIZE < (List.replicate 1401 0).length := by
    rw [List.length_replicate]; decide
  exact ⟨h, c3_onion_data_response_size_limit _ h⟩

/-- A 1476-byte TCP OnionRequest packet: tag, nonce, `IpPort`, key and a
1400-byte payload. -/
def c3Input : List Nat :=
  8 :: (List.replicate 24 0 ++ (2 :: List.replicate 18 0) ++ List.replicate 32 0 ++
    List.replicate 1400 7)

set_option maxRecDepth 40000 in
/-- C3 counterexample: the TCP `OnionRequest::from_bytes` accepts an input
of 1476 bytes, far above `ONION_MAX_PACKET_SIZE`, because it performs no
maximum-size check. -/
theorem c3_counterexample :
    ONION_MAX_PACKET_SIZE < c3Input.length ∧
    (TcpOnionRequest.from_bytes c3Input).isSome = true := by
  constructor <;> decide

/-- C4 (amended): `NodesRequestPayload::from_bytes` (which ends in `eof!`)
succeeds exactly on inputs of 40 bytes, but the old-format
`GetNodes::from_bytes` accepts every input of at least `GET_NODES_SIZE`
bytes, ignoring trailing garbage instead of rejecting it. -/
theorem c4_inner_payload_sizes (bytes : List Nat) :
    ((NodesRequestPayload.from_bytes bytes).isSome ↔ bytes.length = GET_NODES_SIZE) ∧
    ((GetNodes.from_bytes bytes).isSome ↔ GET_NODES_SIZE ≤ bytes.length) := by
  unfold NodesRequestPayload.from_bytes GetNodes.from_bytes takeBytes PublicKey.from_slice
  unfold GET_NODES_SIZE PUBLICKEYBYTES
  constructor
  · by_cases h1 : 32 ≤ bytes.length
    · simp only [h1, if_true]
      by_cases h2 : 8 ≤ (bytes.drop 32).length
      · simp only [h2, if_true]
        cases hr : (bytes.drop 32).drop 8 with
        | nil =>
          have hlen2 := congrArg List.length hr
          simp only [List.length_drop, List.length_nil] at hlen2
          simp only [List.length_drop] at h2
          simp only [Option.isSome_some, true_iff]
          omega
        | cons a l =>
          have hlen2 := congrArg List.length hr
          simp only [List.length_drop, List.length_cons] at hlen2
          simp only [List.length_drop] at h2
          simp
          omega
      · simp only [List.length_drop] at h2
        simp [h2]
        omega
    · simp [h1]
      omega
  · by_cases h : bytes.length < 32 + 8
    · simp [h]
    · have htake : (bytes.take 32).length = 32 := by
        simp only [List.length_take]
        omega
      simp [h, htake]
      omega

/-- C4 witness: a 40-byte input parses as `NodesRequestPayload` and a
41-byte input still parses as old-format `GetNodes`. -/
theorem c4_inner_payload_sizes_witness :
    (NodesRequestPayload.from_bytes (List.replicate 40 0)).isSome = true ∧
    (GetNodes.from_bytes (List.replicate 41 0)).isSome = true :=
  ⟨(c4_inner_payload_sizes (List.replicate 40 0)).1.mpr
      (by simp [GET_NODES_SIZE, PUBLICKEYBYTES]),
   (c4_inner_payload_sizes (List.replicate 41 0)).2.mpr
      (by simp [GET_NODES_SIZE, PUBLICKEYBYTES])⟩

/-- The zero `GetNodes` payload, serializing to 40 zero bytes. -/
def c4GetNodes : GetNodes := GetNodes.mk (List.replicate 32 0) 0

/-- C4 counterexample: a well-formed 40-byte `GetNodes` payload followed by
one extra byte still parses, contradicting the claim that trailing garbage
is rejected. -/
theorem c4_counterexample :
    GetNodes.as_bytes c4GetNodes = List.replicate 40 0 ∧
    GetNodes.from_bytes (List.replicate 40 0 ++ [7]) = some c4GetNodes := by
  constructor <;> decide

/-- C5: starting from `bootstrap_times = 0`, a friend emits at most
`MAX_BOOTSTRAP_TIMES = 5` random NodesRequest probes over any sequence of
`send_nodes_req_random` calls; each emission increments the counter, and
once the counter reaches the cap nothing more is sent. -/
theorem c5_bootstrap_cap :
    (∀ (calls : List RandomReqCall) (pk : List Nat) (now0 : Nat),
      (runRandomReqCalls calls (DhtFriendSt.new pk 0 now0)).1 ≤ MAX_BOOTSTRAP_TIMES) ∧
    (∀ bt ni now cn r1 r2 f,
      ((sendNodesReqRandom bt ni now cn r1 r2 f).1.isSome = true →
        (sendNodesReqRandom bt ni now cn r1 r2 f).2.bootstrap_times = f.bootstrap_times + 1) ∧
      (MAX_BOOTSTRAP_TIMES ≤ f.bootstrap_times →
        (sendNodesReqRandom bt ni now cn r1 r2 f).1 = none)) := by
  constructor
  · intro calls pk now0
    have := runRandom_le calls (DhtFriendSt.new pk 0 now0)
    simpa [DhtFriendSt.new] using this
  · intro bt ni now cn r1 r2 f
    rcases sendNodesReqRandom_cases bt ni now cn r1 r2 f with ⟨hsome, hlt, hbt⟩ | ⟨hnone, hst⟩
    · exact ⟨fun _ => hbt, fun hge => absurd hlt (by omega)⟩
    · refine ⟨fun hs => ?_, fun _ => hnone⟩
      rw [hnone] at hs
      simp at hs

/-- C5 witness: ten identical calls from a fresh friend emit at most five
probes, and an emitting call increments the counter. -/
theorem c5_bootstrap_cap_witness :
    (runRandomReqCalls
      (List.replicate 10 (RandomReqCall.mk 100 0 50 [CloseNodeInfo.mk [10] 0] 7 3))
      (DhtFriendSt.new [1] 0 0)).1 ≤ MAX_BOOTSTRAP_TIMES ∧
    (sendNodesReqRandom 100 0 50 [CloseNodeInfo.mk [10] 0] 7 3
      (DhtFriendSt.new [1] 0 0)).2.bootstrap_times =
      (DhtFriendSt.new [1] 0 0).bootstrap_times + 1 :=
  ⟨c5_bootstrap_cap.1 _ [1] 0,
   (c5_bootstrap_cap.2 100 0 50 [CloseNodeInfo.mk [10] 0] 7 3 (DhtFriendSt.new [1] 0 0)).1
     (by decide)⟩

/-- C6: when `send_nodes_req_random` emits a request, the request targets
the friend's public key; the recipient index is `r₁ % num_good_nodes`
decreased (when nonzero) by `r₂ % (r + 1)`, stays within bounds of the
good-node list, and the recipient is a good node: it comes from the close
list and its last-response elapsed time is strictly below
`bad_node_timeout`. -/
theorem c6_random_selection (bt ni now : Nat) (cn : List CloseNodeInfo) (r1 r2 : Nat)
    (f : DhtFriendSt) (e : NodesReqEmission)
    (h : (sendNodesReqRandom bt ni now cn r1 r2 f).1 = some e) :
    e.target = f.pk ∧
    0 < (goodNodesOf bt cn).length ∧
    r1 % (goodNodesOf bt cn).length < (goodNodesOf bt cn).length ∧
    chosenIndex (goodNodesOf bt cn).length r1 r2 ≤ r1 % (goodNodesOf bt cn).length ∧
    chosenIndex (goodNodesOf bt cn).length r1 r2 < (goodNodesOf bt cn).length ∧
    (∃ node, (goodNodesOf bt cn)[chosenIndex (goodNodesOf bt cn).length r1 r2]? = some node ∧
      e.recipient = node.pk ∧ node ∈ cn ∧ node.lastRespElapsed < bt) := by
  by_cases hc : (goodNodesOf bt cn ≠ [] ∧ ni ≤ now - f.last_nodes_req_time ∧
      f.bootstrap_times < MAX_BOOTSTRAP_TIMES)
  · have hlen : 0 < (goodNodesOf bt cn).length := List.length_pos.mpr hc.1
    have hr : r1 % (goodNodesOf bt cn).length < (goodNodesOf bt cn).length :=
      Nat.mod_lt _ hlen
    have hle : chosenIndex (goodNodesOf bt cn).length r1 r2 ≤
        r1 % (goodNodesOf bt cn).length := by
      simp only [chosenIndex]
      split <;> omega
    have hidx : chosenIndex (goodNodesOf bt cn).length r1 r2 < (goodNodesOf bt cn).length :=
      lt_of_le_of_lt hle hr
    simp [sendNodesReqRandom, hc] at h
    subst h
    refine ⟨rfl, hlen, hr, hle, hidx,
      (goodNodesOf bt cn)[chosenIndex (goodNodesOf bt cn).length r1 r2], ?_, ?_, ?_, ?_⟩
    · exact List.getElem?_eq_getElem hidx
    · show ((goodNodesOf bt cn)[chosenIndex (goodNodesOf bt cn).length r1 r2]?.getD
        (CloseNodeInfo.mk [] 0)).pk = _
      rw [List.getElem?_eq_getElem hidx]
      rfl
    · have hmem : (goodNodesOf bt cn)[chosenIndex (goodNodesOf bt cn).length r1 r2] ∈
          goodNodesOf bt cn := List.getElem_mem hidx
      exact (List.mem_filter.mp hmem).1
    · have hmem : (goodNodesOf bt cn)[chosenIndex (goodNodesOf bt cn).length r1 r2] ∈
          goodNodesOf bt cn := List.getElem_mem hidx
      have := (List.mem_filter.mp hmem).2
      exact of_decide_eq_true this
  · simp [sendNodesReqRandom, hc] at h

/-- C6 witness: a concrete emitting call targets the friend's key with a
nonempty good-node list. -/
theorem c6_random_selection_witness :
    (NodesReqEmission.mk [1] [10]).target = (DhtFriendSt.new [1] 0 0).pk ∧
    0 < (goodNodesOf 100 [CloseNodeInfo.mk [10] 0]).length :=
  ⟨(c6_random_selection 100 0 50 [CloseNodeInfo.mk [10] 0] 7 3 (DhtFriendSt.new [1] 0 0)
      (NodesReqEmission.mk [1] [10]) (by decide)).1,
   (c6_random_selection 100 0 50 [CloseNodeInfo.mk [10] 0] 7 3 (DhtFriendSt.new [1] 0 0)
      (NodesReqEmission.mk [1] [10]) (by decide)).2.1⟩

/-- C7: `PingSender::try_add` returns false and leaves the pending queue
unchanged whenever the node (a) is in `close_nodes` and not timed out,
(b) cannot be added to `close_nodes` (`can_add` fails), (c) is already
pending, or (d) is a friend absent from every friend close list; in
case (d), when checks (a) and (b) pass, an immediate direct PingRequest is
sent instead of queueing. -/
theorem c7_try_add_refusals (s : ServerSt) (node : DNode) (p : PingSender) :
    (((∃ found, s.close_nodes.find_node node.pk = some found ∧
        isBadNodeTimedOut s found = false) ∨
      s.close_nodes.can_add node = false ∨
      p.is_in_ping_list node = true ∨
      (isFriend s node = true ∧ isInCloseList s node = false)) →
      ((PingSender.try_add s node p).1 = false ∧ (PingSender.try_add s node p).2.1 = p)) ∧
    ((∀ found, s.close_nodes.find_node node.pk = some found →
        isBadNodeTimedOut s found = true) →
      s.close_nodes.can_add node = true →
      isFriend s node = true → isInCloseList s node = false →
      (PingSender.try_add s node p).2.2 = true) := by
  constructor
  · intro hdisj
    unfold PingSender.try_add
    cases hfind : s.close_nodes.find_node node.pk with
    | some found =>
      by_cases hbad : isBadNodeTimedOut s found = true <;>
        by_cases hcan : s.close_nodes.can_add node = true <;>
        by_cases hfr : isFriend s node = true <;>
        by_cases hicl : isInCloseList s node = true <;>
        by_cases hpl : p.is_in_ping_list node = true <;>
        simp_all
    | none =>
      by_cases hcan : s.close_nodes.can_add node = true <;>
        by_cases hfr : isFriend s node = true <;>
        by_cases hicl : isInCloseList s node = true <;>
        by_cases hpl : p.is_in_ping_list node = true <;>
        simp_all
  · intro ha hcan hfr hicl
    unfold PingSender.try_add
    cases hfind : s.close_nodes.find_node node.pk with
    | some found =>
      have hbad := ha found hfind
      simp [hbad, hcan, hfr, hicl]
    | none =>
      simp [hcan, hfr, hicl]

/-- A node already sitting in the pending ping queue. -/
def c7Node : DNode := DNode.mk (List.replicate 32 1) (SocketAddr.V4 1 2 3 4 80)

/-- A server with empty close list and no friends. -/
def c7Server : ServerSt :=
  ServerSt.mk (List.replicate 32 0) (Kbucket.mk (List.replicate 32 0) []) [] 100 (fun _ => 0)

/-- A ping sender whose queue already holds `c7Node`. -/
def c7Ping : PingSender := PingSender.mk 0 (Bucket.mk 8 [c7Node])

/-- C7 witness: a node already pending is refused and the queue is left
unchanged. -/
theorem c7_try_add_refusals_witness :
    (PingSender.try_add c7Server c7Node c7Ping).1 = false ∧
    (PingSender.try_add c7Server c7Node c7Ping).2.1 = c7Ping :=
  (c7_try_add_refusals c7Server c7Node c7Ping).1 (Or.inr (Or.inr (Or.inl (by decide))))

/-- C8: assuming `seal` adds exactly `MACBYTES = 16` bytes, an old-style
`DhtPacket` built from a `SendNodes` with exactly two IPv4 nodes serializes
to exactly 160 bytes: 1 kind + 32 key + 24 nonce + (1 count + 2×39 nodes +
8 id + 16 tag). -/
theorem c8_nodes_response_size
    (sealFn : List Nat → List Nat → List Nat → List Nat → List Nat)
    (sk pk rpk nonce : List Nat) (n1 n2 : PackedNode) (i : Nat)
    (hseal : ∀ m no r s, (sealFn m no r s).length = m.length + MACBYTES)
    (hpk : pk.length = PUBLICKEYBYTES) (hnonce : nonce.length = NONCEBYTES)
    (h1 : isV4Node n1 = true) (h2 : isV4Node n2 = true) :
    ((DhtPacket.new sealFn sk pk rpk nonce
      (DPacketT.SendNodes (SendNodes.mk [n1, n2] i))).as_bytes).length = 160 := by
  simp [DhtPacket.new, DhtPacket.as_bytes, hseal, DPacketT.as_bytes, SendNodes.as_bytes,
    u64_to_array, as_bytes_length_v4 n1 h1, as_bytes_length_v4 n2 h2, hpk, hnonce,
    PUBLICKEYBYTES, NONCEBYTES, MACBYTES, PACKED_NODE_IPV4_SIZE]

/-- A sealing function appending a 16-byte tag, for the C8 witness. -/
def c8Seal : List Nat → List Nat → List Nat → List Nat → List Nat :=
  fun m _ _ _ => m ++ List.replicate 16 0

/-- C8 witness: the 160-byte size at concrete keys, nonce and nodes. -/
theorem c8_nodes_response_size_witness :
    ((DhtPacket.new c8Seal (List.replicate 32 3) (List.replicate 32 170) (List.replicate 32 1)
      (List.replicate 24 17)
      (DPacketT.SendNodes (SendNodes.mk
        [PackedNode.mk IpType.U4 (SocketAddr.V4 127 0 0 1 33445) (List.replicate 32 5),
         PackedNode.mk IpType.U4 (SocketAddr.V4 1 2 3 4 80) (List.replicate 32 6)]
        7))).as_bytes).length = 160 :=
  c8_nodes_response_size c8Seal (List.replicate 32 3) (List.replicate 32 170)
    (List.replicate 32 1) (List.replicate 24 17)
    (PackedNode.mk IpType.U4 (SocketAddr.V4 127 0 0 1 33445) (List.replicate 32 5))
    (PackedNode.mk IpType.U4 (SocketAddr.V4 1 2 3 4 80) (List.replicate 32 6)) 7
    (fun m no r s => by simp [c8Seal, MACBYTES])
    (by decide) (by decide) (by decide) (by decide)

/-- C9: `PackedNode::from_bytes_multiple` fails exactly when the input is
shorter than 39 bytes or the leading node fails to parse; a successful
result is never empty, and when the leading node parses the result starts
with it (nodes are parsed greedily from the front, ignoring the bytes
after the first failure). -/
theorem c9_from_bytes_multiple (bytes : List Nat) :
    ((PackedNode.from_bytes_multiple bytes = none) ↔
      (bytes.length < PACKED_NODE_IPV4_SIZE ∨ PackedNode.from_bytes bytes = none)) ∧
    (∀ v, PackedNode.from_bytes_multiple bytes = some v → v ≠ []) ∧
    (∀ node, PackedNode.from_bytes bytes = some node →
      ∃ v, PackedNode.from_bytes_multiple bytes = some v ∧ v.head? = some node) := by
  unfold PackedNode.from_bytes_multiple
  by_cases h : bytes.length < PACKED_NODE_IPV4_SIZE
  · refine ⟨by simp [h], by simp [h], ?_⟩
    intro node hnode
    exact absurd (from_bytes_some_length bytes node hnode) (by omega)
  · obtain ⟨m, hm⟩ : ∃ m, bytes.length = m + 1 := by
      refine ⟨bytes.length - 1, ?_⟩
      unfold PACKED_NODE_IPV4_SIZE PUBLICKEYBYTES at h
      omega
    rw [hm] at h ⊢
    cases hfb : PackedNode.from_bytes bytes with
    | none =>
      simp [h, PackedNode.multipleLoop, hfb]
    | some node =>
      refine ⟨by simp [h, PackedNode.multipleLoop, hfb], ?_, ?_⟩
      · intro v hv
        simp [h, PackedNode.multipleLoop, hfb] at hv
        rw [← hv]
        simp
      · intro node2 hnode2
        injection hnode2 with heq
        subst heq
        simp [h, PackedNode.multipleLoop, hfb]

/-- C9 witness: a single 39-byte zero node parses to a one-element list
headed by that node. -/
theorem c9_from_bytes_multiple_witness :
    ∃ v, PackedNode.from_bytes_multiple (2 :: List.replicate 38 0) = some v ∧
      v.head? = some (PackedNode.mk IpType.U4 (SocketAddr.V4 0 0 0 0 0)
        (List.replicate 32 0)) :=
  (c9_from_bytes_multiple (2 :: List.replicate 38 0)).2.2 _ (by decide)

/-- C10: `Ping::new` always constructs a request; `Ping::response` applied
to a request returns the response carrying the identical id, and applied to
a response returns `None`. -/
theorem c10_ping_response (p : Ping) (rid : Nat) :
    (Ping.new rid).is_request = true ∧
    (p.is_request = true → p.response = some { p_type := PingType.Resp, id := p.id }) ∧
    (p.is_request = false → p.response = none) := by
  obtain ⟨t, i⟩ := p
  cases t <;> simp [Ping.new, Ping.is_request, Ping.response]

/-- C10 witness: a concrete request gets a response with the same id. -/
theorem c10_ping_response_witness :
    (Ping.new 7).is_request = true ∧
    (Ping.mk PingType.Req 42).response = some (Ping.mk PingType.Resp 42) :=
  ⟨(c10_ping_response (Ping.mk PingType.Req 42) 7).1,
   (c10_ping_response (Ping.mk PingType.Req 42) 7).2.1 (by decide)⟩

end Tox
